import Mathlib

/-!
Verification of the per-image plant-analysis pipeline.

Each definition below is a shallow embedding of a function of the
backend (`app/analysis/health_score.py`, `color_metrics.py`,
`segmentation.py`, `size_calibration.py`, `pipeline.py`).  Machine
floats of the source are modelled as rationals; NumPy arrays as lists
or finite sets; `None`-able values as `Option`.  External computer
vision primitives (peak detection, colour-space conversion, connected
component labelling) enter as explicitly quantified inputs, together
with the properties their documentation guarantees.
-/

/- ── Health score (health_score.py) ─────────────────────────────── -/

/-- The configuration fields read by `compute_health_score`
(config.py, class Settings). -/
structure HealthSettings where
  health_weight_greenness : ℚ
  health_weight_saturation : ℚ
  health_weight_growth : ℚ
  healthy_greenness_ref : ℚ
  healthy_saturation_ref : ℚ

/-- Default configuration values from config.py. -/
def defaultHealthSettings : HealthSettings :=
  { health_weight_greenness := 2/5
    health_weight_saturation := 3/10
    health_weight_growth := 3/10
    healthy_greenness_ref := 9/20
    healthy_saturation_ref := 11/20 }

/-- `_clamp` from health_score.py: `max(lo, min(hi, value))`. -/
def _clamp (value lo hi : ℚ) : ℚ := max lo (min hi value)

/-- Round-half-to-even on rationals, the rounding mode of Python's
builtin `round`. -/
def roundHalfEven (q : ℚ) : ℤ :=
  if q - ⌊q⌋ < 1/2 then ⌊q⌋
  else if 1/2 < q - ⌊q⌋ then ⌊q⌋ + 1
  else if ⌊q⌋ % 2 = 0 then ⌊q⌋ else ⌊q⌋ + 1

/-- Python's `round(x, 2)`: round to two decimal places. -/
def round2 (q : ℚ) : ℚ := (roundHalfEven (q * 100) : ℚ) / 100

/-- The growth component of the health score (health_score.py lines
53-65): positive growth rates shift a 0.5 baseline up (capped at 1),
negative ones down (floored at 0); with no growth rate the previous
health acts as proxy, and with neither the component is neutral 0.5. -/
def growthNormOf (growth_rate previous_health : Option ℚ) : ℚ :=
  match growth_rate with
  | some gr => if 0 ≤ gr then min 1 (1/2 + gr * (1/10)) else max 0 (1/2 + gr * (1/10))
  | none =>
    match previous_health with
    | some ph => ph / 100
    | none => 1/2

/-- `compute_health_score` from health_score.py: normalize greenness,
saturation and growth to `[0,1]`, take the weighted average, scale to
0-100, clamp, and round to two decimals. -/
def compute_health_score (s : HealthSettings) (greenness_index mean_saturation : ℚ)
    (growth_rate : Option ℚ) (previous_health : Option ℚ) : ℚ :=
  let w1 := s.health_weight_greenness
  let w2 := s.health_weight_saturation
  let w3 := s.health_weight_growth
  let greenness_norm := _clamp ((greenness_index + 1) / (s.healthy_greenness_ref + 1)) 0 1
  let sat_norm :=
    if 0 < s.healthy_saturation_ref then
      _clamp (mean_saturation / s.healthy_saturation_ref) 0 1
    else 0
  let growth_norm := growthNormOf growth_rate previous_health
  let total_weight := w1 + w2 + w3
  let raw := (w1 * greenness_norm + w2 * sat_norm + w3 * growth_norm) / total_weight
  let score := _clamp (raw * 100) 0 100
  round2 score

/- ── Helper lemmas about clamping and rounding ───────────────────── -/

theorem _clamp_le {value lo hi : ℚ} (hlo : lo ≤ hi) : _clamp value lo hi ≤ hi := by
  unfold _clamp
  exact max_le hlo (min_le_left _ _)

theorem le_clamp {value lo hi : ℚ} : lo ≤ _clamp value lo hi := le_max_left _ _

theorem _clamp_mono {v₁ v₂ lo hi : ℚ} (h : v₁ ≤ v₂) :
    _clamp v₁ lo hi ≤ _clamp v₂ lo hi :=
  max_le_max le_rfl (min_le_min le_rfl h)

theorem roundHalfEven_ge_floor (q : ℚ) : ⌊q⌋ ≤ roundHalfEven q := by
  unfold roundHalfEven
  split_ifs <;> omega

theorem roundHalfEven_le_ceil (q : ℚ) : roundHalfEven q ≤ ⌈q⌉ := by
  have hfloor : (⌊q⌋ : ℚ) ≤ q := Int.floor_le q
  have hceil : q ≤ (⌈q⌉ : ℚ) := Int.le_ceil q
  have hfc : ⌊q⌋ ≤ ⌈q⌉ := Int.floor_le_ceil q
  unfold roundHalfEven
  split_ifs with h1 h2 h3
  · exact hfc
  · have hlt : (⌊q⌋ : ℚ) < (⌈q⌉ : ℚ) := by linarith
    have : ⌊q⌋ < ⌈q⌉ := by exact_mod_cast hlt
    omega
  · exact hfc
  · have hq : (1:ℚ)/2 ≤ q - ⌊q⌋ := not_lt.mp h1
    have hlt : (⌊q⌋ : ℚ) < (⌈q⌉ : ℚ) := by linarith
    have : ⌊q⌋ < ⌈q⌉ := by exact_mod_cast hlt
    omega

theorem roundHalfEven_mono {q r : ℚ} (h : q ≤ r) : roundHalfEven q ≤ roundHalfEven r := by
  rcases lt_or_le ⌊q⌋ ⌊r⌋ with hf | hf
  · calc roundHalfEven q ≤ ⌈q⌉ := roundHalfEven_le_ceil q
    _ ≤ ⌊q⌋ + 1 := Int.ceil_le_floor_add_one q
    _ ≤ ⌊r⌋ := hf
    _ ≤ roundHalfEven r := roundHalfEven_ge_floor r
  · have hf' : ⌊r⌋ ≤ ⌊q⌋ := hf
    have hf2 : ⌊q⌋ ≤ ⌊r⌋ := Int.floor_le_floor h
    have hfe : ⌊q⌋ = ⌊r⌋ := le_antisymm hf2 hf'
    have hfrac : q - ⌊q⌋ ≤ r - ⌊r⌋ := by
      rw [← hfe]
      linarith
    unfold roundHalfEven
    rw [hfe] at *
    split_ifs <;> first | omega | linarith

theorem round2_bounds {q : ℚ} (h0 : 0 ≤ q) (h100 : q ≤ 100) :
    0 ≤ round2 q ∧ round2 q ≤ 100 := by
  have hfl : (0:ℤ) ≤ ⌊q * 100⌋ := by
    apply Int.le_floor.mpr
    push_cast
    linarith
  have hcl : ⌈q * 100⌉ ≤ (10000 : ℤ) := by
    apply Int.ceil_le.mpr
    push_cast
    linarith
  have h1 : (0:ℤ) ≤ roundHalfEven (q * 100) :=
    le_trans hfl (roundHalfEven_ge_floor _)
  have h2 : roundHalfEven (q * 100) ≤ 10000 :=
    le_trans (roundHalfEven_le_ceil _) hcl
  constructor
  · unfold round2
    positivity
  · unfold round2
    rw [div_le_iff (by norm_num : (0:ℚ) < 100)]
    exact_mod_cast h2

/-- Claim C1: for every input, `compute_health_score` returns a value in
`[0,100]` that is an integer multiple of `1/100` (two decimal places);
the hypotheses state the configuration is usable by the source (the two
divisors that Python would fault on are nonzero). -/
theorem compute_health_score_bounded (s : HealthSettings)
    (greenness_index mean_saturation : ℚ)
    (growth_rate previous_health : Option ℚ)
    (href : s.healthy_greenness_ref + 1 ≠ 0)
    (hw : s.health_weight_greenness + s.health_weight_saturation + s.health_weight_growth ≠ 0) :
    0 ≤ compute_health_score s greenness_index mean_saturation growth_rate previous_health ∧
    compute_health_score s greenness_index mean_saturation growth_rate previous_health ≤ 100 ∧
    ∃ n : ℤ, compute_health_score s greenness_index mean_saturation growth_rate previous_health
      = (n : ℚ) / 100 := by
  unfold compute_health_score
  have hb := round2_bounds (q := _clamp
    ((s.health_weight_greenness *
        _clamp ((greenness_index + 1) / (s.healthy_greenness_ref + 1)) 0 1 +
      s.health_weight_saturation *
        (if 0 < s.healthy_saturation_ref then
          _clamp (mean_saturation / s.healthy_saturation_ref) 0 1 else 0) +
      s.health_weight_growth * growthNormOf growth_rate previous_health) /
      (s.health_weight_greenness + s.health_weight_saturation + s.health_weight_growth) * 100)
    0 100)
    le_clamp (_clamp_le (by norm_num))
  exact ⟨hb.1, hb.2, _, rfl⟩

/-- Claim C1 witness: the two extreme inputs named by the spec, under the
default configuration, give scores within `[0,100]`. -/
theorem compute_health_score_bounded_witness :
    (0 ≤ compute_health_score defaultHealthSettings 1 1 (some 100) none ∧
      compute_health_score defaultHealthSettings 1 1 (some 100) none ≤ 100 ∧
      ∃ n : ℤ, compute_health_score defaultHealthSettings 1 1 (some 100) none = (n : ℚ) / 100) ∧
    (0 ≤ compute_health_score defaultHealthSettings (-1) 0 (some (-100)) none ∧
      compute_health_score defaultHealthSettings (-1) 0 (some (-100)) none ≤ 100 ∧
      ∃ n : ℤ, compute_health_score defaultHealthSettings (-1) 0 (some (-100)) none
        = (n : ℚ) / 100) :=
  ⟨compute_health_score_bounded defaultHealthSettings 1 1 (some 100) none
      (by norm_num [defaultHealthSettings]) (by norm_num [defaultHealthSettings]),
    compute_health_score_bounded defaultHealthSettings (-1) 0 (some (-100)) none
      (by norm_num [defaultHealthSettings]) (by norm_num [defaultHealthSettings])⟩

theorem round2_mono {q r : ℚ} (h : q ≤ r) : round2 q ≤ round2 r := by
  unfold round2
  have := roundHalfEven_mono (mul_le_mul_of_nonneg_right h (by norm_num : (0:ℚ) ≤ 100))
  exact (div_le_div_right (by norm_num : (0:ℚ) < 100)).mpr (by exact_mod_cast this)

/-- `compute_health_score` written out as one formula, for rewriting. -/
theorem compute_health_score_formula (s : HealthSettings) (g m : ℚ)
    (gr ph : Option ℚ) :
    compute_health_score s g m gr ph =
      round2 (_clamp
        ((s.health_weight_greenness * _clamp ((g + 1) / (s.healthy_greenness_ref + 1)) 0 1 +
          s.health_weight_saturation *
            (if 0 < s.healthy_saturation_ref then _clamp (m / s.healthy_saturation_ref) 0 1
              else 0) +
          s.health_weight_growth * growthNormOf gr ph) /
          (s.health_weight_greenness + s.health_weight_saturation + s.health_weight_growth)
          * 100) 0 100) := rfl

/-- Claim C8: with `growth_rate` absent and all other inputs fixed, a
higher `previous_health` never yields a lower score; the hypotheses
state the growth weight is non-negative and the weights have positive
sum, as the configured defaults do. -/
theorem compute_health_score_mono_previous_health (s : HealthSettings)
    (greenness_index mean_saturation : ℚ) (ph₁ ph₂ : ℚ)
    (hw3 : 0 ≤ s.health_weight_growth)
    (htw : 0 < s.health_weight_greenness + s.health_weight_saturation + s.health_weight_growth)
    (hph : ph₂ ≤ ph₁) :
    compute_health_score s greenness_index mean_saturation none (some ph₂) ≤
      compute_health_score s greenness_index mean_saturation none (some ph₁) := by
  rw [compute_health_score_formula, compute_health_score_formula]
  apply round2_mono
  apply _clamp_mono
  apply mul_le_mul_of_nonneg_right ?_ (by norm_num : (0:ℚ) ≤ 100)
  apply (div_le_div_right htw).mpr
  have hg : growthNormOf none (some ph₂) ≤ growthNormOf none (some ph₁) := by
    simp only [growthNormOf]
    exact (div_le_div_right (by norm_num : (0:ℚ) < 100)).mpr hph
  have := mul_le_mul_of_nonneg_left hg hw3
  linarith

/-- Claim C8 witness: under the default configuration and fixed colour
inputs, previous health 50 gives at most the score of previous health 80. -/
theorem compute_health_score_mono_previous_health_witness :
    compute_health_score defaultHealthSettings (3/10) (2/5) none (some 50) ≤
      compute_health_score defaultHealthSettings (3/10) (2/5) none (some 80) :=
  compute_health_score_mono_previous_health defaultHealthSettings (3/10) (2/5) 80 50
    (by norm_num [defaultHealthSettings]) (by norm_num [defaultHealthSettings])
    (by norm_num)

/- ── Colour metrics (color_metrics.py) ───────────────────────────── -/

/-- `image[mask > 0]`: the pixels selected by the mask.  A pixel is a
BGR triple `(b, g, r)` of channel values. -/
def maskedPixels (image : List (ℚ × ℚ × ℚ)) (mask : List Bool) : List (ℚ × ℚ × ℚ) :=
  ((image.zip mask).filter (fun pm => pm.2)).map (fun pm => pm.1)

/-- `np.mean` over a vector of channel values. -/
def meanQ (xs : List ℚ) : ℚ := xs.sum / (xs.length : ℚ)

/-- The greenness formula of `extract_color_metrics` (color_metrics.py
lines 52-56): `(2*G - R - B) / (R + G + B)` over channel means, and 0
when the channel sum is not positive. -/
def greennessOfMeans (r_mean g_mean b_mean : ℚ) : ℚ :=
  let channel_sum := r_mean + g_mean + b_mean
  if 0 < channel_sum then (2 * g_mean - r_mean - b_mean) / channel_sum else 0

/-- The greenness index computed by `extract_color_metrics`: 0 when the
mask selects no pixels (the all-zero early return, lines 39-41),
otherwise `greennessOfMeans` over the channel means of the masked
pixels. -/
def greenness_index (image : List (ℚ × ℚ × ℚ)) (mask : List Bool) : ℚ :=
  let plant_pixels := maskedPixels image mask
  if plant_pixels.length = 0 then 0
  else
    greennessOfMeans (meanQ (plant_pixels.map (fun p => p.2.2)))
      (meanQ (plant_pixels.map (fun p => p.2.1)))
      (meanQ (plant_pixels.map (fun p => p.1)))

/-- Claim C2 counterexample: a single pure-green masked pixel
`(B, G, R) = (0, 255, 0)` has non-negative channel means with positive
sum, yet its greenness index is 2, outside `[-1, 1]`. -/
theorem greenness_index_counterexample :
    greenness_index [(0, 255, 0)] [true] = 2 ∧
      ¬(greenness_index [(0, 255, 0)] [true] ≤ 1) := by
  constructor
  · norm_num [greenness_index, maskedPixels, meanQ, greennessOfMeans]
  · norm_num [greenness_index, maskedPixels, meanQ, greennessOfMeans]

/-- Claim C2 (amended): over non-negative channel means the greenness
index lies in `[-1, 2]` when the channel sum is positive (2 is attained,
so `[-1, 1]` is wrong); it is exactly 0 when the channel sum is 0, and
exactly 0 when the mask selects no pixels. -/
theorem greenness_index_range (r_mean g_mean b_mean : ℚ)
    (hr : 0 ≤ r_mean) (hg : 0 ≤ g_mean) (hb : 0 ≤ b_mean) :
    (0 < r_mean + g_mean + b_mean →
      -1 ≤ greennessOfMeans r_mean g_mean b_mean ∧
        greennessOfMeans r_mean g_mean b_mean ≤ 2) ∧
    (r_mean + g_mean + b_mean = 0 → greennessOfMeans r_mean g_mean b_mean = 0) ∧
    ∀ (image : List (ℚ × ℚ × ℚ)) (mask : List Bool),
      maskedPixels image mask = [] → greenness_index image mask = 0 := by
  refine ⟨fun hs => ?_, fun hs => ?_, fun image mask hmp => ?_⟩
  · unfold greennessOfMeans
    rw [if_pos hs]
    constructor
    · rw [le_div_iff₀ hs]
      linarith
    · rw [div_le_iff₀ hs]
      linarith
  · unfold greennessOfMeans
    rw [if_neg (by rw [hs]; exact lt_irrefl 0)]
  · unfold greenness_index
    rw [hmp]
    simp

/-- Claim C2 witness: for the concrete channel means `(1, 1, 1)` the
greenness index is within `[-1, 2]`. -/
theorem greenness_index_range_witness :
    -1 ≤ greennessOfMeans 1 1 1 ∧ greennessOfMeans 1 1 1 ≤ 2 :=
  (greenness_index_range 1 1 1 (by norm_num) (by norm_num) (by norm_num)).1 (by norm_num)

/- ── Orchestrator area conversion (pipeline.py) ──────────────────── -/

/-- The physical-area step of `analyze_image` (pipeline.py lines
109-110): `area_mm2` is set to `area_px / px_per_mm ** 2` exactly when
segmentation succeeded and a present, positive scale exists; otherwise
it keeps its `None` default. -/
def computeAreaMm2 (segmentation_success : Bool) (area_px : ℕ)
    (px_per_mm : Option ℚ) : Option ℚ :=
  match px_per_mm with
  | some s =>
    if segmentation_success = true ∧ 0 < s then some ((area_px : ℚ) / s ^ 2) else none
  | none => none

/-- Claim C7: the orchestrator's physical area equals
`area_px / scale²` when present, is never negative, and is absent
whenever the scale is absent, non-positive, or segmentation failed. -/
theorem area_mm2_correct (success : Bool) (area_px : ℕ) (px : Option ℚ) :
    (∀ v, computeAreaMm2 success area_px px = some v → 0 ≤ v) ∧
    (∀ s, px = some s → 0 < s → success = true →
      computeAreaMm2 success area_px px = some ((area_px : ℚ) / s ^ 2)) ∧
    (px = none → computeAreaMm2 success area_px px = none) ∧
    (∀ s, px = some s → s ≤ 0 → computeAreaMm2 success area_px px = none) ∧
    (success = false → computeAreaMm2 success area_px px = none) := by
  refine ⟨fun v hv => ?_, fun s hpx hs hsucc => ?_, fun hpx => ?_, fun s hpx hs => ?_,
    fun hsucc => ?_⟩
  · cases px with
    | none => simp [computeAreaMm2] at hv
    | some s =>
      simp only [computeAreaMm2] at hv
      split_ifs at hv with h
      cases hv
      exact div_nonneg (by positivity) (sq_nonneg s)
  · subst hpx hsucc
    simp [computeAreaMm2, hs]
  · subst hpx
    rfl
  · subst hpx
    simp [computeAreaMm2, hs.not_lt]
  · subst hsucc
    cases px <;> simp [computeAreaMm2]


/-- Claim C7 witness: with a successful segmentation of 50 pixels and a
scale of 2 px per mm, the physical area is `50 / 2² = 12.5 mm²`. -/
theorem area_mm2_correct_witness :
    computeAreaMm2 true 50 (some 2) = some ((50 : ℚ) / 2 ^ 2) :=
  (area_mm2_correct true 50 (some 2)).2.1 2 rfl (by norm_num) rfl
/- ── Segmentation (segmentation.py) ──────────────────────────────── -/

/-- The kinds of morphological operation used by the segmentation
cleanup (`cv2.MORPH_CLOSE`, `cv2.MORPH_OPEN`). -/
inductive MorphKind where
  | close
  | opening
deriving DecidableEq

/-- One `cv2.morphologyEx` call: operation, structuring-element size,
iteration count. -/
structure MorphStep where
  kind : MorphKind
  kernel : ℕ × ℕ
  iterations : ℕ
deriving DecidableEq

/-- A cleanup pass: the sequence of morphology calls followed by the
minimum-area component filter. -/
structure CleanupSpec where
  steps : List MorphStep
  min_area : ℕ
deriving DecidableEq

/-- `settings.min_plant_area_px` default from config.py. -/
def min_plant_area_px : ℕ := 500

/-- The cleanup applied on the primary HSV path of `segment_plant`
(segmentation.py lines 67-71): close with a 5x5 ellipse twice, open
once, then drop components below the minimum area. -/
def segmentPlantCleanup : CleanupSpec :=
  { steps := [⟨MorphKind.close, (5, 5), 2⟩, ⟨MorphKind.opening, (5, 5), 1⟩]
    min_area := min_plant_area_px }

/-- The cleanup applied by `_plantcv_fallback` (segmentation.py lines
180-183): close with a 5x5 ellipse twice, open twice, then drop
components below the minimum area. -/
def plantcvFallbackCleanup : CleanupSpec :=
  { steps := [⟨MorphKind.close, (5, 5), 2⟩, ⟨MorphKind.opening, (5, 5), 1 + 1⟩]
    min_area := min_plant_area_px }

/-- Claim C5 counterexample: the fallback path does not apply exactly
the same morphological cleanup as the primary path. -/
theorem cleanup_specs_differ : ¬(plantcvFallbackCleanup = segmentPlantCleanup) := by
  decide

/-- Claim C5 (amended): the fallback applies the same operations with
the same structuring element and the same minimum-area filter as the
primary path, and the same closing iteration count, but it runs the
opening with 2 iterations where the primary path runs 1. -/
theorem cleanup_specs_comparison :
    segmentPlantCleanup.min_area = plantcvFallbackCleanup.min_area ∧
    segmentPlantCleanup.steps.map MorphStep.kind =
      plantcvFallbackCleanup.steps.map MorphStep.kind ∧
    segmentPlantCleanup.steps.map MorphStep.kernel =
      plantcvFallbackCleanup.steps.map MorphStep.kernel ∧
    segmentPlantCleanup.steps.map MorphStep.iterations = [2, 1] ∧
    plantcvFallbackCleanup.steps.map MorphStep.iterations = [2, 2] := by
  decide

/-- The result record of `segment_plant`.  The mask is the flattened
sequence of binary pixels; a contour is a point sequence. -/
structure SegmentationResult where
  mask : List Bool
  area_px : ℕ
  contour : Option (List (ℕ × ℕ))
  success : Bool

/-- `cv2.countNonZero` on a binary mask. -/
def countNonZero (mask : List Bool) : ℕ := (mask.filter id).length

/-- `_plantcv_fallback` viewed from its caller (segmentation.py lines
168-186): whatever mask its thresholding and cleanup produce, the
returned area is the count of set pixels of that mask. -/
def plantcv_fallback (fallback_mask : List Bool) : List Bool × ℕ :=
  (fallback_mask, countNonZero fallback_mask)

/-- Python's `max(contours, key=contourArea)` over a non-empty list
(first maximal element wins), `None` on the empty list. -/
def maxByArea (contourArea : List (ℕ × ℕ) → ℚ) :
    List (List (ℕ × ℕ)) → Option (List (ℕ × ℕ))
  | [] => none
  | c :: cs =>
    some (cs.foldl (fun best x => if contourArea best < contourArea x then x else best) c)

/-- The result assembly of `segment_plant` (segmentation.py lines
71-92), quantified over the outputs of the image-processing
primitives: `hsv_mask` is the cleaned primary HSV mask, `fallback_mask`
the mask produced inside `_plantcv_fallback`, `contours` the result of
`cv2.findContours` on the final mask. -/
def segment_plant (min_area : ℕ) (hsv_mask fallback_mask : List Bool)
    (contours : List (List (ℕ × ℕ))) (contourArea : List (ℕ × ℕ) → ℚ) :
    SegmentationResult :=
  let area₀ := countNonZero hsv_mask
  let mf := if area₀ < min_area then plantcv_fallback fallback_mask else (hsv_mask, area₀)
  if mf.2 < min_area then
    { mask := mf.1, area_px := mf.2, contour := none, success := false }
  else
    { mask := mf.1, area_px := mf.2, contour := maxByArea contourArea contours,
      success := true }

/-- Claim C6: every `SegmentationResult` of `segment_plant` has
`area_px` equal to the count of set pixels of the returned mask, has
`success = false` whenever `area_px` is below the minimum area, and
carries a contour only when `success` is true. -/
theorem segment_plant_invariants (min_area : ℕ) (hsv_mask fallback_mask : List Bool)
    (contours : List (List (ℕ × ℕ))) (contourArea : List (ℕ × ℕ) → ℚ) :
    (segment_plant min_area hsv_mask fallback_mask contours contourArea).area_px =
      countNonZero (segment_plant min_area hsv_mask fallback_mask contours contourArea).mask ∧
    ((segment_plant min_area hsv_mask fallback_mask contours contourArea).area_px < min_area →
      (segment_plant min_area hsv_mask fallback_mask contours contourArea).success = false) ∧
    ((segment_plant min_area hsv_mask fallback_mask contours contourArea).contour ≠ none →
      (segment_plant min_area hsv_mask fallback_mask contours contourArea).success = true) := by
  simp only [segment_plant, plantcv_fallback]
  split_ifs with h1 h2
  · exact ⟨rfl, fun _ => rfl, fun hc => absurd rfl hc⟩
  · exact ⟨rfl, fun hlt => absurd hlt h2, fun _ => rfl⟩
  · exact ⟨rfl, fun hlt => absurd hlt h1, fun _ => rfl⟩

/-- Claim C6 witness: a concrete run in which the fallback mask is also
too small reports failure with no contour, and the area matches the
mask's set-pixel count. -/
theorem segment_plant_invariants_witness :
    (segment_plant 2 [true] [true, false] [] (fun _ => 0)).success = false ∧
    (segment_plant 2 [true] [true, false] [] (fun _ => 0)).area_px =
      countNonZero (segment_plant 2 [true] [true, false] [] (fun _ => 0)).mask :=
  ⟨(segment_plant_invariants 2 [true] [true, false] [] (fun _ => 0)).2.1 (by decide),
    (segment_plant_invariants 2 [true] [true, false] [] (fun _ => 0)).1⟩
/- ── Ruler calibration (size_calibration.py) ─────────────────────── -/

/-- The result record of the calibration step (size_calibration.py,
dataclass CalibrationResult). -/
structure CalibrationResult where
  px_per_mm : Option ℚ
  ruler_detected : Bool
  tick_count : ℕ
  median_tick_spacing_px : ℚ
deriving DecidableEq

/-- `np.diff` on the detected peak positions. -/
def diffList : List ℤ → List ℤ
  | a :: b :: rest => (b - a) :: diffList (b :: rest)
  | _ => []

/-- The consecutive-peak spacings, as floats (size_calibration.py
line 154). -/
def spacingsOf (peaks : List ℤ) : List ℚ := (diffList peaks).map (fun d : ℤ => (d : ℚ))

/-- `np.median`: middle element of the sorted data for odd length,
mean of the two middle elements for even length. -/
def medianQ (xs : List ℚ) : ℚ :=
  let sorted := xs.mergeSort (fun a b => a ≤ b)
  if xs.length = 0 then 0
  else if xs.length % 2 = 1 then sorted.getD (xs.length / 2) 0
  else (sorted.getD (xs.length / 2 - 1) 0 + sorted.getD (xs.length / 2) 0) / 2

/-- The spacings surviving the outlier filter of `_find_tick_spacing`
(size_calibration.py line 158): those within 40% of the median. -/
def inlierSpacings (peaks : List ℤ) : List ℚ :=
  let spacings := spacingsOf peaks
  let median_spacing := medianQ spacings
  spacings.filter (fun sp => |sp - median_spacing| < (2/5) * median_spacing)

/-- `_find_tick_spacing` (size_calibration.py lines 149-183) downstream
of peak detection: the detected peak positions enter as input, standing
for the output of `scipy.signal.find_peaks` on the smoothed inverted
profile. -/
def find_tick_spacing (peaks : List ℤ) (tick_distance_mm : ℚ) : CalibrationResult :=
  if peaks.length < 3 then
    { px_per_mm := none, ruler_detected := false, tick_count := peaks.length,
      median_tick_spacing_px := 0 }
  else if (inlierSpacings peaks).length < 2 then
    { px_per_mm := none, ruler_detected := true, tick_count := peaks.length,
      median_tick_spacing_px := medianQ (spacingsOf peaks) }
  else
    { px_per_mm := some (medianQ (inlierSpacings peaks) / tick_distance_mm),
      ruler_detected := true, tick_count := peaks.length,
      median_tick_spacing_px := medianQ (inlierSpacings peaks) }

/-- The orientation choice of `calibrate_from_ruler`
(size_calibration.py lines 72-79): prefer the orientation with more
ticks when both produced a scale, use whichever produced one otherwise,
and fail as undetected when neither did. -/
def combineOrientations (result_h result_v : CalibrationResult) : CalibrationResult :=
  match result_h.px_per_mm, result_v.px_per_mm with
  | some _, some _ => if result_v.tick_count ≤ result_h.tick_count then result_h else result_v
  | some _, none => result_h
  | none, some _ => result_v
  | none, none =>
    { px_per_mm := none, ruler_detected := false, tick_count := 0,
      median_tick_spacing_px := 0 }

/-- `calibrate_from_ruler` downstream of profile extraction: the peak
lists of the two 1-D profiles (column means and row means) enter as
inputs. -/
def calibrate_from_ruler_peaks (peaks_h peaks_v : List ℤ) (tick_distance_mm : ℚ) :
    CalibrationResult :=
  combineOrientations (find_tick_spacing peaks_h tick_distance_mm)
    (find_tick_spacing peaks_v tick_distance_mm)

/-- When `_find_tick_spacing` reports a scale it also reports the ruler
as detected. -/
theorem find_tick_spacing_px_detected (peaks : List ℤ) (t : ℚ)
    (h : ((find_tick_spacing peaks t).px_per_mm).isSome = true) :
    (find_tick_spacing peaks t).ruler_detected = true := by
  unfold find_tick_spacing at h ⊢
  split_ifs at h ⊢ <;> simp_all

/-- Claim C3 counterexample: three peaks at 0, 5, 100 give spacings
5 and 95, median 50, and no spacing within 40% of the median; the
result has `ruler_detected = true` and `tick_count = 3` but no scale,
so scale presence and `ruler_detected` are not equivalent. -/
theorem find_tick_spacing_counterexample :
    (find_tick_spacing [0, 5, 100] 1).ruler_detected = true ∧
    (find_tick_spacing [0, 5, 100] 1).px_per_mm = none ∧
    (find_tick_spacing [0, 5, 100] 1).tick_count = 3 := by
  have hsp : spacingsOf [0, 5, 100] = [5, 95] := by
    norm_num [spacingsOf, diffList]
  have hmed : medianQ [5, 95] = 50 := by
    norm_num [medianQ, List.mergeSort]
  have hinl : inlierSpacings [0, 5, 100] = [] := by
    simp only [inlierSpacings, hsp, hmed]
    rw [List.filter_cons, List.filter_cons, List.filter_nil]
    norm_num [abs_lt]
  refine ⟨?_, ?_, ?_⟩ <;>
    simp [find_tick_spacing, hinl]

/-- Claim C3 (amended): in `_find_tick_spacing` the scale is present
iff `tick_count ≥ 3` and at least 2 spacings survive the outlier
filter, while `ruler_detected` holds iff `tick_count ≥ 3` alone (so a
filter failure yields `detected = true` with no scale); at the
`calibrate_from_ruler` level, scale presence and `ruler_detected` do
coincide. -/
theorem calibration_result_invariants (peaks : List ℤ) (tick_distance_mm : ℚ) :
    (((find_tick_spacing peaks tick_distance_mm).px_per_mm).isSome = true ↔
      (3 ≤ (find_tick_spacing peaks tick_distance_mm).tick_count ∧
        2 ≤ (inlierSpacings peaks).length)) ∧
    ((find_tick_spacing peaks tick_distance_mm).ruler_detected = true ↔
      3 ≤ (find_tick_spacing peaks tick_distance_mm).tick_count) ∧
    ∀ peaks_v : List ℤ,
      (((calibrate_from_ruler_peaks peaks peaks_v tick_distance_mm).px_per_mm).isSome = true ↔
        (calibrate_from_ruler_peaks peaks peaks_v tick_distance_mm).ruler_detected = true) := by
  refine ⟨?_, ?_, ?_⟩
  · unfold find_tick_spacing
    split_ifs with h1 h2
    · simp
      intro h3
      omega
    · simp
      intro h3
      omega
    · simp
      omega
  · unfold find_tick_spacing
    split_ifs with h1 h2
    · simp
      omega
    · simp
      omega
    · simp
      omega
  · intro peaks_v
    unfold calibrate_from_ruler_peaks combineOrientations
    cases hh : (find_tick_spacing peaks tick_distance_mm).px_per_mm with
    | none =>
      cases hv : (find_tick_spacing peaks_v tick_distance_mm).px_per_mm with
      | none => simp
      | some v =>
        simp only []
        rw [find_tick_spacing_px_detected peaks_v tick_distance_mm (by simp [hv])]
        simp [hv]
    | some u =>
      cases hv : (find_tick_spacing peaks_v tick_distance_mm).px_per_mm with
      | none =>
        simp only []
        rw [find_tick_spacing_px_detected peaks tick_distance_mm (by simp [hh])]
        simp [hh]
      | some v =>
        simp only []
        split_ifs with hcmp
        · rw [find_tick_spacing_px_detected peaks tick_distance_mm (by simp [hh])]
          simp [hh]
        · rw [find_tick_spacing_px_detected peaks_v tick_distance_mm (by simp [hv])]
          simp [hv]
/-- An in-range `getD` is a member of the list. -/
theorem getD_mem_of_lt {xs : List ℚ} {i : ℕ} (h : i < xs.length) : xs.getD i 0 ∈ xs := by
  rw [List.getD_eq_getElem xs 0 h]
  exact List.getElem_mem h

/-- The median of a non-empty list of positive rationals is positive. -/
theorem medianQ_pos {xs : List ℚ} (hne : xs ≠ []) (hpos : ∀ x ∈ xs, 0 < x) :
    0 < medianQ xs := by
  have hlen : (xs.mergeSort (fun a b => a ≤ b)).length = xs.length :=
    (List.mergeSort_perm xs _).length_eq
  have hmem : ∀ x ∈ xs.mergeSort (fun a b => a ≤ b), 0 < x := fun x hx =>
    hpos x ((List.mergeSort_perm xs _).mem_iff.mp hx)
  have hlen0 : xs.length ≠ 0 := fun h => hne (List.length_eq_zero.mp h)
  unfold medianQ
  split_ifs with h0 hodd
  · exact absurd h0 hlen0
  · refine hmem _ (getD_mem_of_lt ?_)
    omega
  · have ha : 0 < (xs.mergeSort (fun a b => a ≤ b)).getD (xs.length / 2 - 1) 0 := by
      refine hmem _ (getD_mem_of_lt ?_)
      omega
    have hb : 0 < (xs.mergeSort (fun a b => a ≤ b)).getD (xs.length / 2) 0 := by
      refine hmem _ (getD_mem_of_lt ?_)
      omega
    have : (0:ℚ) < 2 := by norm_num
    positivity

/-- Strictly increasing peak positions give positive consecutive
differences. -/
theorem diffList_pos : ∀ {peaks : List ℤ}, List.Chain' (· < ·) peaks →
    ∀ d ∈ diffList peaks, 0 < d
  | [], _, d, hd => by simp [diffList] at hd
  | [_], _, d, hd => by simp [diffList] at hd
  | a :: b :: rest, hch, d, hd => by
    rw [diffList] at hd
    rcases List.mem_cons.mp hd with h | h
    · have hab : a < b := (List.chain'_cons.mp hch).1
      subst h
      omega
    · exact diffList_pos (List.chain'_cons.mp hch).2 d h

/-- All spacings of a strictly increasing peak list are positive. -/
theorem spacingsOf_pos {peaks : List ℤ} (hch : List.Chain' (· < ·) peaks) :
    ∀ sp ∈ spacingsOf peaks, 0 < sp := by
  intro sp hsp
  unfold spacingsOf at hsp
  rcases List.mem_map.mp hsp with ⟨d, hd, heq⟩
  have hdpos := diffList_pos hch d hd
  rw [← heq]
  exact_mod_cast hdpos

/-- Whatever scale `_find_tick_spacing` reports for strictly increasing
peaks and a positive tick distance is positive. -/
theorem find_tick_spacing_pos {peaks : List ℤ} {t : ℚ}
    (hch : List.Chain' (· < ·) peaks) (ht : 0 < t) :
    ∀ v, (find_tick_spacing peaks t).px_per_mm = some v → 0 < v := by
  intro v hv
  unfold find_tick_spacing at hv
  split_ifs at hv with h1 h2
  have hlen : 2 ≤ (inlierSpacings peaks).length := by omega
  have hne : inlierSpacings peaks ≠ [] := by
    intro h
    rw [h] at hlen
    simp at hlen
  have hpos : ∀ x ∈ inlierSpacings peaks, 0 < x := by
    intro x hx
    have hx' : x ∈ spacingsOf peaks := List.mem_of_mem_filter hx
    exact spacingsOf_pos hch x hx'
  have hmed : 0 < medianQ (inlierSpacings peaks) := medianQ_pos hne hpos
  cases hv
  exact div_pos hmed ht

/-- Any scale the orientation combination reports came from one of the
two orientations. -/
theorem combineOrientations_px (rh rv : CalibrationResult) (v : ℚ)
    (h : (combineOrientations rh rv).px_per_mm = some v) :
    rh.px_per_mm = some v ∨ rv.px_per_mm = some v := by
  unfold combineOrientations at h
  cases hh : rh.px_per_mm with
  | none =>
    cases hv : rv.px_per_mm with
    | none =>
      rw [hh, hv] at h
      simp at h
    | some b =>
      rw [hh, hv] at h
      dsimp only at h
      exact Or.inr (hv.symm.trans h)
  | some a =>
    cases hv : rv.px_per_mm with
    | none =>
      rw [hh, hv] at h
      dsimp only at h
      exact Or.inl (hh.symm.trans h)
    | some b =>
      rw [hh, hv] at h
      dsimp only at h
      split_ifs at h
      · exact Or.inl (hh.symm.trans h)
      · exact Or.inr (hv.symm.trans h)

/-- Claim C9: for strictly increasing peak positions (as
`scipy.signal.find_peaks` returns, its minimum-distance constraint
enforcing separation) and a positive tick distance, whenever
`calibrate_from_ruler` reports a scale it is strictly positive. -/
theorem calibrate_px_per_mm_pos (peaks_h peaks_v : List ℤ) (t : ℚ)
    (ht : 0 < t) (hh : List.Chain' (· < ·) peaks_h)
    (hv : List.Chain' (· < ·) peaks_v) :
    ∀ v, (calibrate_from_ruler_peaks peaks_h peaks_v t).px_per_mm = some v → 0 < v := by
  intro v hsome
  rcases combineOrientations_px _ _ v hsome with h | h
  · exact find_tick_spacing_pos hh ht v h
  · exact find_tick_spacing_pos hv ht v h

/-- Claim C9 witness: evenly spaced peaks 0, 10, 20 with tick distance
1 mm give the concrete positive scale 10 px per mm. -/
theorem calibrate_px_per_mm_pos_witness :
    (calibrate_from_ruler_peaks [0, 10, 20] [] 1).px_per_mm = some 10 ∧ (0:ℚ) < 10 := by
  have hsp : spacingsOf [0, 10, 20] = [10, 10] := by
    norm_num [spacingsOf, diffList]
  have hmed : medianQ [10, 10] = 10 := by
    norm_num [medianQ, List.mergeSort]
  have hinl : inlierSpacings [0, 10, 20] = [10, 10] := by
    simp only [inlierSpacings, hsp, hmed]
    rw [List.filter_cons, List.filter_cons, List.filter_nil]
    norm_num [abs_lt]
  have hEval : (calibrate_from_ruler_peaks [0, 10, 20] [] 1).px_per_mm = some 10 := by
    have hfh : find_tick_spacing [0, 10, 20] 1 =
        { px_per_mm := some 10, ruler_detected := true, tick_count := 3,
          median_tick_spacing_px := 10 } := by
      simp [find_tick_spacing, hinl, hmed]
    have hfv : find_tick_spacing ([] : List ℤ) 1 =
        { px_per_mm := none, ruler_detected := false, tick_count := 0,
          median_tick_spacing_px := 0 } := by
      simp [find_tick_spacing]
    rw [calibrate_from_ruler_peaks, hfh, hfv]
    rfl
  refine ⟨hEval, calibrate_px_per_mm_pos [0, 10, 20] [] 1 (by norm_num) ?_ ?_ 10 hEval⟩
  · norm_num [List.chain'_cons]
  · simp

/-- The dimensions of an image array. -/
structure ImageShape where
  height : ℕ
  width : ℕ
deriving DecidableEq

/-- `ndarray.size` of a 3-channel image of this shape. -/
def shapeSize (s : ImageShape) : ℕ := s.height * s.width * 3

/-- The shape of the NumPy slice `image[y : y + h, x : x + w]` for
non-negative bounds: slicing clips to the array's extent. -/
def cropShape (img : ImageShape) (x y w h : ℕ) : ImageShape :=
  { height := min (y + h) img.height - min y img.height
    width := min (x + w) img.width - min x img.width }

/-- The region-of-interest step of `calibrate_from_ruler`
(size_calibration.py lines 54-59): crop to the configured rectangle
only when the rectangle has 4 entries and the cropped slice is
non-empty; otherwise keep the full image. -/
def roiRegion (img : ImageShape) (roi : Option (List ℕ)) : ImageShape :=
  match roi with
  | some [x, y, w, h] =>
    let cropped := cropShape img x y w h
    if 0 < shapeSize cropped then cropped else img
  | _ => img

/-- Whether `calibrate_from_ruler` takes its immediate
`ruler_detected = false` return (size_calibration.py lines 61-62): it
does so exactly when the image it is left with is empty. -/
def calibrateReturnsImmediateFailure (img : ImageShape) (roi : Option (List ℕ)) : Bool :=
  shapeSize (roiRegion img roi) == 0

/-- Claim C4 counterexample: a 100x100 image with a crop rectangle
entirely outside it has an empty crop, yet `calibrate_from_ruler` does
not return `detected = false` immediately: it ignores the rectangle and
analyses the full image. -/
theorem empty_crop_counterexample :
    shapeSize (cropShape ⟨100, 100⟩ 200 0 50 50) = 0 ∧
    calibrateReturnsImmediateFailure ⟨100, 100⟩ (some [200, 0, 50, 50]) = false ∧
    roiRegion ⟨100, 100⟩ (some [200, 0, 50, 50]) = ⟨100, 100⟩ := by
  decide

/-- Claim C4 (amended): a configured crop region that is empty after
clipping is ignored — the full image is kept — and the immediate
`detected = false` return is taken only when that remaining image is
itself empty. -/
theorem empty_crop_ignored (img : ImageShape) (x y w h : ℕ)
    (hempty : shapeSize (cropShape img x y w h) = 0) :
    roiRegion img (some [x, y, w, h]) = img ∧
    (calibrateReturnsImmediateFailure img (some [x, y, w, h]) = true ↔
      shapeSize img = 0) := by
  have hroi : roiRegion img (some [x, y, w, h]) = img := by
    simp only [roiRegion]
    rw [hempty]
    simp
  refine ⟨hroi, ?_⟩
  unfold calibrateReturnsImmediateFailure
  rw [hroi]
  simp

/-- Claim C4 witness: the amended behaviour at the concrete 100x100
image with the out-of-frame crop rectangle. -/
theorem empty_crop_ignored_witness :
    roiRegion ⟨100, 100⟩ (some [200, 0, 50, 50]) = ⟨100, 100⟩ :=
  (empty_crop_ignored ⟨100, 100⟩ 200 0 50 50 (by decide)).1
/- ── Connected-component filter (segmentation.py lines 158-165) ──── -/

/-- 8-neighbourhood adjacency of two pixel coordinates. -/
def neighbors8 (p q : ℤ × ℤ) : Prop :=
  p ≠ q ∧ |p.1 - q.1| ≤ 1 ∧ |p.2 - q.2| ≤ 1

instance (p q : ℤ × ℤ) : Decidable (neighbors8 p q) := by
  unfold neighbors8
  infer_instance

/-- A path of 8-adjacent pixels inside `S` joins `p` to `q`. -/
def connectedIn (S : Finset (ℤ × ℤ)) (p q : ℤ × ℤ) : Prop :=
  Relation.ReflTransGen (fun a b => a ∈ S ∧ b ∈ S ∧ neighbors8 a b) p q

/-- The connected component of `p` inside `S`. -/
def componentOf (S : Finset (ℤ × ℤ)) (p : ℤ × ℤ) : Set (ℤ × ℤ) :=
  {q | q ∈ S ∧ connectedIn S p q}

/-- `stats[i, cv2.CC_STAT_AREA]`: the pixel count of label `i` over the
image domain. -/
def labelArea (domain : Finset (ℤ × ℤ)) (labels : ℤ × ℤ → ℕ) (i : ℕ) : ℕ :=
  (domain.filter (fun p => labels p = i)).card

/-- `_remove_small_components`: starting from a zero image, each
non-background label `1 ≤ i < num_labels` whose area is at least
`min_area` has all its pixels set (segmentation.py lines 161-164), so a
pixel survives iff its own label is non-background and large enough.
`labels` and the areas stand for the output of
`cv2.connectedComponentsWithStats` on the mask. -/
def remove_small_components (domain : Finset (ℤ × ℤ)) (labels : ℤ × ℤ → ℕ)
    (num_labels min_area : ℕ) : Finset (ℤ × ℤ) :=
  domain.filter (fun p =>
    1 ≤ labels p ∧ labels p < num_labels ∧ min_area ≤ labelArea domain labels (labels p))

/-- Claim C10: under the contract of connected-component labelling
(background label 0 exactly off the mask, labels below `num_labels`,
adjacent mask pixels share a label, equilabelled mask pixels are
connected within the mask), the filtered mask is a sub-mask of the
input, every connected component of the filtered mask has at least
`min_area` pixels, and its set-pixel count does not exceed the
input's. -/
theorem remove_small_components_correct
    (domain mask : Finset (ℤ × ℤ)) (labels : ℤ × ℤ → ℕ) (num_labels min_area : ℕ)
    (hsub : mask ⊆ domain)
    (hbg : ∀ p ∈ domain, (labels p = 0 ↔ p ∉ mask))
    (hlt : ∀ p ∈ mask, labels p < num_labels)
    (hadj : ∀ p ∈ mask, ∀ q ∈ mask, neighbors8 p q → labels p = labels q)
    (hconn : ∀ p ∈ mask, ∀ q ∈ mask, labels p = labels q → connectedIn mask p q) :
    remove_small_components domain labels num_labels min_area ⊆ mask ∧
    (∀ p ∈ remove_small_components domain labels num_labels min_area,
      min_area ≤
        (componentOf (remove_small_components domain labels num_labels min_area) p).ncard) ∧
    (remove_small_components domain labels num_labels min_area).card ≤ mask.card := by
  set cleaned := remove_small_components domain labels num_labels min_area with hcleaned
  have hmem : ∀ p, p ∈ cleaned ↔ p ∈ domain ∧ 1 ≤ labels p ∧ labels p < num_labels ∧
      min_area ≤ labelArea domain labels (labels p) := by
    intro p
    rw [hcleaned]
    unfold remove_small_components
    rw [Finset.mem_filter]
  have hsub1 : cleaned ⊆ mask := by
    intro p hp
    rcases (hmem p).mp hp with ⟨hdom, h1, -, -⟩
    by_contra hpm
    have h0 : labels p = 0 := (hbg p hdom).mpr hpm
    omega
  have hmono : ∀ p ∈ cleaned, ∀ q, connectedIn cleaned p q →
      q ∈ cleaned ∧ labels q = labels p := by
    intro p hp q hpath
    induction hpath with
    | refl => exact ⟨hp, rfl⟩
    | tail hab hbc ih =>
      rename_i b c
      rcases hbc with ⟨hbmem, hcmem, hnb⟩
      rcases ih with ⟨-, hblab⟩
      have hlabbc : labels b = labels c := hadj b (hsub1 hbmem) c (hsub1 hcmem) hnb
      exact ⟨hcmem, hlabbc.symm.trans hblab⟩
  have hlift : ∀ p ∈ cleaned, ∀ q, connectedIn mask p q →
      connectedIn cleaned p q ∧ q ∈ cleaned ∧ labels q = labels p := by
    intro p hp q hpath
    induction hpath with
    | refl => exact ⟨Relation.ReflTransGen.refl, hp, rfl⟩
    | tail hab hbc ih =>
      rename_i b c
      rcases hbc with ⟨hbmask, hcmask, hnb⟩
      rcases ih with ⟨hpathc, hbc', hblab⟩
      have hlabbc : labels b = labels c := hadj b hbmask c hcmask hnb
      have hclab : labels c = labels p := hlabbc.symm.trans hblab
      have hcc : c ∈ cleaned := by
        rcases (hmem p).mp hp with ⟨-, h1, h2, h3⟩
        refine (hmem c).mpr ⟨hsub hcmask, ?_, hlt c hcmask, ?_⟩
        · omega
        · rw [hclab]
          exact h3
      exact ⟨hpathc.tail ⟨hbc', hcc, hnb⟩, hcc, hclab⟩
  have hcomp : ∀ p ∈ cleaned, componentOf cleaned p =
      ↑(domain.filter (fun q => labels q = labels p)) := by
    intro p hp
    ext q
    simp only [componentOf, Set.mem_setOf_eq, Finset.coe_filter, Finset.mem_coe]
    constructor
    · rintro ⟨hqc, hpath⟩
      rcases (hmem q).mp hqc with ⟨hqdom, -, -, -⟩
      exact ⟨hqdom, (hmono p hp q hpath).2⟩
    · rintro ⟨hqdom, hqlab⟩
      have hqmask : q ∈ mask := by
        rcases (hmem p).mp hp with ⟨-, h1, -, -⟩
        by_contra hqm
        have h0 : labels q = 0 := (hbg q hqdom).mpr hqm
        omega
      have hpmask : p ∈ mask := hsub1 hp
      have hmaskpath : connectedIn mask p q := hconn p hpmask q hqmask hqlab.symm
      rcases hlift p hp q hmaskpath with ⟨hpathc, hqc, -⟩
      exact ⟨hqc, hpathc⟩
  refine ⟨hsub1, ?_, Finset.card_le_card hsub1⟩
  intro p hp
  rw [hcomp p hp, Set.ncard_coe_Finset]
  rcases (hmem p).mp hp with ⟨-, -, -, h3⟩
  exact h3

/-- Claim C10 witness: a 1-pixel mask labelled 1 on a 1-pixel domain
with `min_area = 1` — the filtered mask has no more pixels than the
input mask. -/
theorem remove_small_components_correct_witness :
    (remove_small_components {((0:ℤ), (0:ℤ))}
        (fun p => if p = ((0:ℤ), (0:ℤ)) then 1 else 0) 2 1).card ≤
      ({((0:ℤ), (0:ℤ))} : Finset (ℤ × ℤ)).card :=
  (remove_small_components_correct {((0:ℤ), (0:ℤ))} {((0:ℤ), (0:ℤ))}
    (fun p => if p = ((0:ℤ), (0:ℤ)) then 1 else 0) 2 1
    (by decide) (by decide) (by decide) (by decide)
    (fun p hp q hq _ => by
      have hp' : p = ((0:ℤ), (0:ℤ)) := Finset.mem_singleton.mp hp
      have hq' : q = ((0:ℤ), (0:ℤ)) := Finset.mem_singleton.mp hq
      rw [hp', hq']
      exact Relation.ReflTransGen.refl)).2.2
